import Mathlib

/-!
A shallow embedding of `src/de.rs` (query-string deserialization: percent
decoding, the bracket-notation key/value parser producing a `Level` tree, and
the `Level` traversal driver), together with theorems checking the
natural-language specification against it.

Bytes are modelled as `Nat` (values < 256 in practice).  Rust `Result` plus
the possibility of `panic!` / `.unwrap()` aborts is modelled by `PRes`:
`ok` for `Ok`, `err` for `Err(de::Error::custom msg)`, and `panicked` for a
process abort.  Mutation through `&mut` references is modelled by explicit
state passing: every function that mutates a `Level` node returns the updated
node even on the error path, because in Rust mutations performed before an
`Err` return persist in the caller's tree.
-/

/-- Outcome of running a piece of the Rust code: `Ok`, `Err(custom msg)`, or a
process abort (`panic!`, or `.unwrap()` applied to an `Err`). -/
inductive PRes (α : Type) where
  | ok (a : α)
  | err (msg : String)
  | panicked (msg : String)
deriving Repr

/-- `Result::unwrap()`: an `Err` becomes a panic, carrying the message. -/
def PRes.unwrapped : PRes α → PRes α
  | .ok a => .ok a
  | .err m => .panicked m
  | .panicked m => .panicked m

/-- UTF-8 continuation byte (`0x80 ..= 0xBF`). -/
def isUtf8Cont (b : Nat) : Bool := 128 ≤ b && b ≤ 191

/-- One-codepoint-at-a-time UTF-8 decoder with fuel (fuel ≥ list length is
always sufficient); models the validity checking done by Rust's
`String::from_utf8`, including overlong-encoding and surrogate rejection. -/
def utf8DecodeAux : Nat → List Nat → Option (List Char)
  | _, [] => some []
  | 0, _ :: _ => none
  | fuel + 1, b :: rest =>
    if b ≤ 127 then
      (utf8DecodeAux fuel rest).map (List.cons (Char.ofNat b))
    else if 194 ≤ b && b ≤ 223 then
      match rest with
      | c1 :: rest1 =>
        if isUtf8Cont c1 then
          (utf8DecodeAux fuel rest1).map
            (List.cons (Char.ofNat ((b - 192) * 64 + (c1 - 128))))
        else none
      | [] => none
    else if 224 ≤ b && b ≤ 239 then
      match rest with
      | c1 :: c2 :: rest2 =>
        if (if b = 224 then 160 ≤ c1 && c1 ≤ 191
            else if b = 237 then 128 ≤ c1 && c1 ≤ 159
            else isUtf8Cont c1) && isUtf8Cont c2 then
          (utf8DecodeAux fuel rest2).map
            (List.cons (Char.ofNat ((b - 224) * 4096 + (c1 - 128) * 64 + (c2 - 128))))
        else none
      | _ => none
    else if 240 ≤ b && b ≤ 244 then
      match rest with
      | c1 :: c2 :: c3 :: rest3 =>
        if (if b = 240 then 144 ≤ c1 && c1 ≤ 191
            else if b = 244 then 128 ≤ c1 && c1 ≤ 143
            else isUtf8Cont c1) && isUtf8Cont c2 && isUtf8Cont c3 then
          (utf8DecodeAux fuel rest3).map
            (List.cons (Char.ofNat
              ((b - 240) * 262144 + (c1 - 128) * 4096 + (c2 - 128) * 64 + (c3 - 128))))
        else none
      | _ => none
    else none

/-- Model of `String::from_utf8`: `none` on invalid UTF-8. -/
def stringFromUtf8 (l : List Nat) : Option String :=
  (utf8DecodeAux l.length l).map fun cs => String.mk cs

/-- ASCII hex digit. -/
def isHexDigitByte (b : Nat) : Bool :=
  (48 ≤ b && b ≤ 57) || (65 ≤ b && b ≤ 70) || (97 ≤ b && b ≤ 102)

/-- Numeric value of an ASCII hex digit. -/
def hexVal (b : Nat) : Nat :=
  if b ≤ 57 then b - 48 else if b ≤ 70 then b - 55 else b - 87

/-- Model of `url::percent_encoding::percent_decode` as used in
`Deserializer::new`: a `%` followed by two hex digits is decoded to the
corresponding byte; otherwise the `%` is passed through unchanged and
decoding continues at the following byte.  `+` is not touched. -/
def percentDecode : List Nat → List Nat
  | [] => []
  | 37 :: a :: b :: rest =>
    if isHexDigitByte a && isHexDigitByte b then
      (hexVal a * 16 + hexVal b) :: percentDecode rest
    else
      37 :: percentDecode (a :: b :: rest)
  | x :: rest => x :: percentDecode rest

/-- UTF-8 bytes of an ASCII string literal (all inputs used in the theorems
below are ASCII, where code points and UTF-8 bytes coincide). -/
def strBytes (s : String) : List Nat := s.toList.map Char.toNat

/-- The intermediate value tree of `de.rs` (`enum Level<'a>`):
`Nested(FnvHashMap<String, Level>)`, `Sequence(Vec<Level>)`,
`Flat(Cow<str>)`, `Invalid(&'static str)`.  The hash map is modelled as an
association list with unique keys (insertion order; `FnvHashMap` iteration
order is unspecified, and the spec promises nothing about sibling order). -/
inductive Level where
  | nested (entries : List (String × Level))
  | sequence (elems : List Level)
  | flat (value : String)
  | invalid (reason : String)
deriving Repr

/-- Association-list lookup, modelling `HashMap` key lookup. -/
def mapLookup (k : String) : List (String × Level) → Option Level
  | [] => none
  | (k1, v) :: rest => if k1 = k then some v else mapLookup k rest

/-- Association-list insert/replace, modelling `HashMap` entry insertion:
replaces the value in place when the key is present, appends otherwise. -/
def mapInsert (k : String) (v : Level) : List (String × Level) → List (String × Level)
  | [] => [(k, v)]
  | (k1, v1) :: rest =>
    if k1 = k then (k1, v) :: rest else (k1, v1) :: mapInsert k v rest

/-- The parser state (`struct Parser`): the remaining byte stream `inner`,
the accumulator `acc`, the last peeked byte `peeked`, and the `array_limit`
field (initialised to 20 in `Parser::new` and never read anywhere). -/
structure Parser where
  inner : List Nat
  acc : List Nat
  peeked : Option Nat
  arrayLimit : Nat
deriving Repr

/-- `Parser::new`: fresh state over a byte stream, `array_limit` 20. -/
def Parser.new (l : List Nat) : Parser :=
  { inner := l, acc := [], peeked := none, arrayLimit := 20 }

/-- `Iterator::next` for `Parser`: pulls straight from `inner`, ignoring
`acc` and `peeked`. -/
def Parser.next (p : Parser) : Option Nat × Parser :=
  match p.inner with
  | [] => (none, p)
  | b :: rest => (some b, { p with inner := rest })

/-- `Parser::peek`: when `acc` is non-empty it returns the (possibly stale)
`peeked` byte without touching the stream; otherwise it pulls one byte from
`inner`, pushes it onto `acc` and records it in `peeked`. -/
def Parser.peek (p : Parser) : Option Nat × Parser :=
  if p.acc.isEmpty then
    match p.inner with
    | [] => (none, p)
    | x :: rest =>
      (some x, { p with inner := rest, acc := p.acc ++ [x], peeked := some x })
  else
    (p.peeked, p)

/-- Loop body of `Parser::parse_string_key(end_on, consume)`, recursing
structurally on the remaining stream (the parser fields are threaded as
separate arguments so that the recursion is structural on `inner`).  Each
iteration runs `tu!(self.next())` — a panic at end of input — and then the
source's match arms in order: the `end_on` byte finishes the key (pushed back
onto `acc` unless `consume`); `=` finishes the key and is pushed back; `]`
and `[` are errors; printable ASCII (0x20–0x7e) is accumulated; anything
else is an error. -/
def parseStringKeyGo (endOn : Nat) (consume : Bool) (acc : List Nat)
    (peeked : Option Nat) (lim : Nat) : List Nat → PRes (String × Parser)
  | [] => .panicked "None found here"
  | x :: rest =>
    if x = endOn then
      match stringFromUtf8 acc with
      | none => .err "blah"
      | some res =>
        if consume then
          .ok (res, { inner := rest, acc := [], peeked := peeked, arrayLimit := lim })
        else
          .ok (res, { inner := rest, acc := [x], peeked := some x, arrayLimit := lim })
    else if x = 61 then
      match stringFromUtf8 acc with
      | none => .err "blah"
      | some res =>
        .ok (res, { inner := rest, acc := [x], peeked := some x, arrayLimit := lim })
    else if x = 93 || x = 91 then
      .err ("unexpected character " ++ String.mk [Char.ofNat x] ++
        " in query string, waiting for: " ++ String.mk [Char.ofNat endOn] ++ ".")
    else if 32 ≤ x && x ≤ 126 then
      parseStringKeyGo endOn consume (acc ++ [x]) peeked lim rest
    else
      .err "unexpected character in query string."

/-- `Parser::parse_string_key`. -/
def parseStringKey (endOn : Nat) (consume : Bool) (p : Parser) : PRes (String × Parser) :=
  parseStringKeyGo endOn consume p.acc p.peeked p.arrayLimit p.inner

/-- `Parser::parse_int_key`: the source is a stub that consumes nothing and
always returns `Ok(None)`. -/
def parseIntKey (endOn : Nat) (p : Parser) : PRes (Option Nat × Parser) :=
  .ok (none, p)

/-- `Parser::parse_seq_value(node)`.  On a peeked `=` it clears `acc`, runs
`self.position(|b| b == b'&')` (which consumes the stream up to and including
the first `&`, discarding the value bytes!), then takes that many bytes from
after the `&` as the value, and pushes a `Flat` onto the node when it is a
`Sequence` (any other node shape is a `panic!`).  On any other peeked byte it
fails with the non-indexed-sequence error.  The updated node is returned even
on the error path. -/
def parseSeqValue (node : Level) (p : Parser) : PRes Parser × Level :=
  match Parser.peek p with
  | (none, _) => (.panicked "None found here", node)
  | (some b, p1) =>
    if b = 61 then
      let p2 := { p1 with acc := ([] : List Nat) }
      match p2.inner.findIdx? (fun c => c = 38) with
      | some idx =>
        let rest := p2.inner.drop (idx + 1)
        let taken := rest.take idx
        let p3 := { p2 with inner := rest.drop idx, acc := taken }
        match stringFromUtf8 p3.acc with
        | none => (.err "invalid utf-8 sequence", node)
        | some value =>
          let p4 := { p3 with acc := ([] : List Nat) }
          match node with
          | .sequence elems => (.ok p4, .sequence (elems ++ [.flat value]))
          | other => (.panicked "", other)
      | none =>
        let p3 := { p2 with inner := ([] : List Nat) }
        match node with
        | .sequence elems => (.ok p3, .sequence (elems ++ [.flat ""]))
        | other => (.panicked "", other)
    else
      (.err "non-indexed sequence of structs not supported", node)

/-- The two mutually recursive parsing procedures of the source,
`Parser::parse` and `Parser::parse_map_value`, as one fuel-indexed call
frame (fuel makes the recursion structural; any fuel of at least twice the
remaining stream length is sufficient, and running out of fuel is reported
as a distinguishable abort that never occurs at the fuel values used
below). -/
inductive Call where
  | parse (node : Level) (p : Parser)
  | mapValue (key : String) (node : Level) (p : Parser)

/-- The node held by a call frame (used only for the out-of-fuel case). -/
def Call.node : Call → Level
  | .parse node _ => node
  | .mapValue _ node _ => node

/-- One engine for `Parser::parse` and `Parser::parse_map_value`.  The result
is the `Result` value (with the parser state on success, and `true` standing
for `parse`'s `Ok(true)`) paired with the updated node — the node update is
kept on the error path too, mirroring mutation through `&mut Level`.

`parse` (the `.parse` frames) peeks the first byte: end of input returns
`Ok(false)`; a letter runs `parse_string_key(b'[', false).unwrap()` (an `Err`
becomes a panic) and then `parse_map_value`; a digit runs the `parse_int_key`
stub (always `None`) and then `parse_seq_value`; `[` clears `acc`, peeks the
next byte (`tu!` panics at end of input), and dispatches letter/digit the
same way with `parse_string_key(b']', true)`; any other byte is `panic!`.

`parse_map_value` (the `.mapValue` frames) peeks (`tu!`): on `=` it clears
`acc`, collects `take_while(|b| b != b'&')` from the stream (consuming the
separator) into `acc`, decodes it with `String::from_utf8`, and writes the
entry into the `Nested` map — `Flat` when vacant, `Invalid("Multiple values
for one key")` when occupied — panicking when the node is not `Nested`; on
any other byte it recurses `parse` into `map.entry(key).or_insert(Nested)`
when the node is `Nested` and silently returns `Ok(())` otherwise. -/
def parseCall : Nat → Call → PRes (Bool × Parser) × Level
  | 0, c => (.panicked "recursion limit reached", c.node)
  | fuel + 1, .parse node p =>
    match Parser.peek p with
    | (none, p1) => (.ok (false, p1), node)
    | (some x, p1) =>
      if (97 ≤ x && x ≤ 122) || (65 ≤ x && x ≤ 90) then
        match (parseStringKey 91 false p1).unwrapped with
        | .ok (key, p2) => parseCall fuel (.mapValue key node p2)
        | .err m => (.err m, node)
        | .panicked m => (.panicked m, node)
      else if 48 ≤ x && x ≤ 57 then
        match (parseIntKey 91 p1).unwrapped with
        | .ok (some key, p2) => parseCall fuel (.mapValue (toString key) node p2)
        | .ok (none, p2) =>
          match parseSeqValue node p2 with
          | (.ok p3, node1) => (.ok (true, p3), node1)
          | (.err m, node1) => (.err m, node1)
          | (.panicked m, node1) => (.panicked m, node1)
        | .err m => (.err m, node)
        | .panicked m => (.panicked m, node)
      else if x = 91 then
        let p2 := { p1 with acc := ([] : List Nat) }
        match Parser.peek p2 with
        | (none, _) => (.panicked "None found here", node)
        | (some y, p3) =>
          if (97 ≤ y && y ≤ 122) || (65 ≤ y && y ≤ 90) then
            match (parseStringKey 93 true p3).unwrapped with
            | .ok (key, p4) => parseCall fuel (.mapValue key node p4)
            | .err m => (.err m, node)
            | .panicked m => (.panicked m, node)
          else if 48 ≤ y && y ≤ 57 then
            match (parseIntKey 93 p3).unwrapped with
            | .ok (some key, p4) => parseCall fuel (.mapValue (toString key) node p4)
            | .ok (none, p4) =>
              match parseSeqValue node p4 with
              | (.ok p5, node1) => (.ok (true, p5), node1)
              | (.err m, node1) => (.err m, node1)
              | (.panicked m, node1) => (.panicked m, node1)
            | .err m => (.err m, node)
            | .panicked m => (.panicked m, node)
          else
            (.panicked "", node)
      else
        (.panicked "", node)
  | fuel + 1, .mapValue key node p =>
    match Parser.peek p with
    | (none, _) => (.panicked "None found here", node)
    | (some b, p1) =>
      if b = 61 then
        let p2 := { p1 with acc := ([] : List Nat) }
        let vec := p2.inner.takeWhile (fun c => c ≠ 38)
        let p3 := { p2 with inner := p2.inner.drop (vec.length + 1), acc := vec }
        match stringFromUtf8 p3.acc with
        | none => (.err "blah", node)
        | some value =>
          let p4 := { p3 with acc := ([] : List Nat) }
          match node with
          | .nested m =>
            match mapLookup key m with
            | some _ =>
              (.ok (true, p4),
               .nested (mapInsert key (.invalid "Multiple values for one key") m))
            | none => (.ok (true, p4), .nested (mapInsert key (.flat value) m))
          | other => (.panicked "", other)
      else
        match node with
        | .nested m =>
          let sub := (mapLookup key m).getD (.nested [])
          match parseCall fuel (.parse sub p1) with
          | (.ok (_, p2), sub1) => (.ok (true, p2), .nested (mapInsert key sub1 m))
          | (.err m1, sub1) => (.err m1, .nested (mapInsert key sub1 m))
          | (.panicked m1, sub1) => (.panicked m1, .nested (mapInsert key sub1 m))
        | other => (.ok (true, p1), other)

/-- `Parser::parse(node)`. -/
def parseGo (fuel : Nat) (node : Level) (p : Parser) : PRes (Bool × Parser) × Level :=
  parseCall fuel (.parse node p)

/-- `Parser::parse_map_value(key, node)` (the `Bool` in the success value is
always `true` and is discarded by the caller, matching `Ok(())`). -/
def parseMapValue (fuel : Nat) (key : String) (node : Level) (p : Parser) :
    PRes (Bool × Parser) × Level :=
  parseCall fuel (.mapValue key node p)

/-- The `while let Ok(x) = parser.parse(&mut root)` loop of
`Deserializer::new`: it stops when `parse` returns `Ok(false)`, and it also
stops — silently discarding the error — when `parse` returns an `Err`; in
both cases the root accumulated so far is kept.  A panic aborts everything.
Each successful `parse` call is given fuel `2 * |inner| + 2`, which the
per-descent stream consumption makes sufficient. -/
def newLoop : Nat → Level → Parser → PRes Level
  | 0, _, _ => .panicked "loop limit reached"
  | fuel + 1, node, p =>
    match parseGo (2 * p.inner.length + 2) node p with
    | (.panicked m, _) => .panicked m
    | (.err _, node1) => .ok node1
    | (.ok (false, _), node1) => .ok node1
    | (.ok (true, p1), node1) => newLoop fuel node1 p1

/-- `Deserializer::new(input)`: percent-decode the whole input, run the parse
loop over the decoded bytes starting from an empty `Nested` root, and take
the root's map (`_ => panic!` is unreachable since the root stays
`Nested`). -/
def deserializerNew (input : List Nat) : PRes (List (String × Level)) :=
  let decoded := percentDecode input
  match newLoop (decoded.length + 2) (.nested []) (Parser.new decoded) with
  | .panicked m => .panicked m
  | .err m => .err m
  | .ok (.nested m) => .ok m
  | .ok _ => .panicked ""

/-- `LevelDeserializer::deserialize` (scalar/leaf access): a `Flat` node
hands its stored text to the external visitor (modelled by returning the
text); every other node shape fails. -/
def levelDeserialize : Level → PRes String
  | .flat x => .ok x
  | _ => .err "cannot deserialize value"

/-- `LevelDeserializer::deserialize_map` (map access): a `Nested` node
yields its entries for map iteration; every other node shape fails. -/
def levelDeserializeMap : Level → PRes (List (String × Level))
  | .nested x => .ok x
  | _ => .err "value does not appear to be a map"

/-- `LevelDeserializer::deserialize_seq` (sequence access): a `Sequence`
node yields its stored elements in order; a `Nested` node is coerced to the
list of its values with the keys discarded; every other node shape fails. -/
def levelDeserializeSeq : Level → PRes (List Level)
  | .sequence x => .ok x
  | .nested m => .ok (m.map Prod.snd)
  | _ => .err "value does not appear to be a sequence"

/-- What the top-level `Deserializer` hands to the external visitor: either
map iteration over the root entries (`visitor.visit_map(self)`) or sequence
iteration whose elements are the root's (key, value) pairs
(`visitor.visit_seq(MapDeserializer::new(self.iter))`). -/
inductive Visit where
  | vmap (entries : List (String × Level))
  | vseq (pairs : List (String × Level))
deriving Repr

/-- `Deserializer::deserialize` (the catch-all, hence any scalar request at
the root): forwards to `deserialize_map`, i.e. offers map iteration. -/
def rootDeserialize (entries : List (String × Level)) : Visit := .vmap entries

/-- `Deserializer::deserialize_map` / `deserialize_struct`: offers map
iteration over the root entries. -/
def rootDeserializeMap (entries : List (String × Level)) : Visit := .vmap entries

/-- `Deserializer::deserialize_seq`: offers sequence iteration whose
elements are the root's (key, value) pairs, via `MapDeserializer`. -/
def rootDeserializeSeq (entries : List (String × Level)) : Visit := .vseq entries

/-- Decimal-digit accumulator for the external integer parse. -/
def digitsToNat (acc : Nat) : List Char → Option Nat
  | [] => some acc
  | c :: rest =>
    if 48 ≤ c.toNat && c.toNat ≤ 57 then
      digitsToNat (acc * 10 + (c.toNat - 48)) rest
    else none

/-- Models `str::parse` for an unsigned integer target (external serde
collaborator): a non-empty all-digit string parses to its value, anything
else is an error.  Overflow of the fixed-width Rust type is not modelled;
no theorem below depends on it. -/
def strParseNat (s : String) : Option Nat :=
  match s.toList with
  | [] => none
  | l => digitsToNat 0 l

/-- Models the external serde typed-decoding layer parsing an integer target
from the text of a scalar leaf (the old-serde primitive visitors accept
`visit_str` and run `str::parse`): scalar access on the node, then digit
parsing. -/
def decodeNat (l : Level) : PRes Nat :=
  match levelDeserialize l with
  | .ok s =>
    match strParseNat s with
    | some n => .ok n
    | none => .err "invalid digit found in string"
  | .err m => .err m
  | .panicked m => .panicked m

/-- Models the external serde visitor for a scalar (integer) target applied
at the document root: the root driver only ever offers `visit_map` /
`visit_seq`, and a scalar visitor rejects both with an invalid-type error. -/
def natVisitorAtRoot : Visit → PRes Nat
  | .vmap _ => .err "invalid type: map, expected an integer"
  | .vseq _ => .err "invalid type: sequence, expected an integer"

/-- Models the external serde visitor for a `Vec<(String, String)>` target
consuming the sequence elements offered by `MapDeserializer`: each element
is the (key, value) pair, the key deserialized as a string and the value
through scalar access on its `Level`. -/
def decodePairList : List (String × Level) → PRes (List (String × String))
  | [] => .ok []
  | (k, v) :: rest =>
    match levelDeserialize v with
    | .ok s =>
      match decodePairList rest with
      | .ok tail => .ok ((k, s) :: tail)
      | .err m => .err m
      | .panicked m => .panicked m
    | .err m => .err m
    | .panicked m => .panicked m

/-- End-to-end model of `from_bytes::<Vec<(String, String)>>`: build the tree
(`Deserializer::new`), request the root as a sequence, and consume the
offered pair elements. -/
def decodeRootAsPairs (input : List Nat) : PRes (List (String × String)) :=
  match deserializerNew input with
  | .ok m =>
    match rootDeserializeSeq m with
    | .vseq pairs => decodePairList pairs
    | .vmap _ => .err "invalid type: map, expected a sequence"
  | .err m => .err m
  | .panicked m => .panicked m

/-- End-to-end model of `from_bytes` for a scalar (integer) root target:
build the tree, request the root as a scalar — the driver's catch-all
`deserialize` offers map iteration, which the scalar visitor rejects. -/
def decodeRootAsNat (input : List Nat) : PRes Nat :=
  match deserializerNew input with
  | .ok m => natVisitorAtRoot (rootDeserialize m)
  | .err m => .err m
  | .panicked m => .panicked m

/-- End-to-end model of `from_bytes` for the struct target
`{ a: String, b: HashMap<String, String> }`: build the tree, then materialize
field `a` through scalar access and field `b` through map access with string
values (missing fields are an error, mirroring serde derive). -/
def decodeStructAB (input : List Nat) : PRes (String × List (String × String)) :=
  match deserializerNew input with
  | .ok m =>
    match mapLookup "a" m, mapLookup "b" m with
    | some la, some lb =>
      match levelDeserialize la with
      | .ok sa =>
        match levelDeserializeMap lb with
        | .ok mb =>
          match decodePairList mb with
          | .ok pb => .ok (sa, pb)
          | .err e => .err e
          | .panicked e => .panicked e
        | .err e => .err e
        | .panicked e => .panicked e
      | .err e => .err e
      | .panicked e => .panicked e
    | _, _ => .err "missing field"
  | .err m => .err m
  | .panicked m => .panicked m

mutual
/-- No `Sequence` node occurs anywhere in this `Level`. -/
def seqFree : Level → Bool
  | .nested m => seqFreeEntries m
  | .sequence _ => false
  | .flat _ => true
  | .invalid _ => true

/-- No `Sequence` node occurs in any value of this entry list. -/
def seqFreeEntries : List (String × Level) → Bool
  | [] => true
  | (_, v) :: rest => seqFree v && seqFreeEntries rest
end

/-- Test harness: `Deserializer::new` with the parser's `array_limit` field
set to `lim` instead of the hard-coded 20; since no parsing code ever reads
the field, this exercises whether the configured nesting limit is
enforced. -/
def deserializerNewWithLimit (lim : Nat) (input : List Nat) : PRes (List (String × Level)) :=
  let decoded := percentDecode input
  match newLoop (decoded.length + 2)
      (.nested []) { inner := decoded, acc := [], peeked := none, arrayLimit := lim } with
  | .panicked m => .panicked m
  | .err m => .err m
  | .ok (.nested m) => .ok m
  | .ok _ => .panicked ""

/-- Expected tree for a chain of `n` bracketed `b` segments ending in the
flat value `"1"` (used by the nesting-depth theorem). -/
def deepChain : Nat → Level
  | 0 => .flat "1"
  | n + 1 => .nested [("b", deepChain n)]

/-- C1: Decoding the input "name=Alice&age=24" succeeds and yields a map with
exactly two entries, key "name" bound to the flat value "Alice" and key "age"
bound to the flat value "24"; the external typed decoder requesting the value
at key "age" as an integer obtains 24. -/
theorem c1_simple_pairs_decode :
    ∃ m, deserializerNew (strBytes "name=Alice&age=24") = .ok m ∧
      m.length = 2 ∧
      mapLookup "name" m = some (.flat "Alice") ∧
      mapLookup "age" m = some (.flat "24") ∧
      (mapLookup "age" m).map decodeNat = some (.ok 24) :=
  ⟨[("name", .flat "Alice"), ("age", .flat "24")], rfl, rfl, rfl, rfl, rfl⟩

/-- C2: the claim that a parse-time error always fails the whole decode is
contradicted by the code.  On "a=1&b[0]=2" the parser reports
"non-indexed sequence of structs not supported" for the second pair (first
conjunct, at exactly the loop's state and fuel for that pair), but
`Deserializer::new`'s `while let Ok` loop silently discards the error and
keeps the partial tree (second conjunct), and a struct target
`{ a: String, b: HashMap<String,String> }` then materializes successfully
from that partial tree (third conjunct): the value "2" is silently lost. -/
theorem c2_swallowed_error_partial_decode :
    parseGo 14 (.nested [("a", .flat "1")]) ⟨strBytes "b[0]=2", [], some 61, 20⟩ =
      (.err "non-indexed sequence of structs not supported",
       .nested [("a", .flat "1"), ("b", .nested [])]) ∧
    deserializerNew (strBytes "a=1&b[0]=2") =
      .ok [("a", .flat "1"), ("b", .nested [])] ∧
    decodeStructAB (strBytes "a=1&b[0]=2") = .ok ("1", []) :=
  ⟨rfl, rfl, rfl⟩

/-- C3: the claim that no input can abort the process is contradicted by the
code: a key ending at end of input hits the `tu!` macro's
`panic!("None found here")`; an unexpected first byte `=` or `]` hits
`Parser::parse`'s catch-all `panic!("")`; a scalar later extended with a
nested path ("a=1&a[b]=2") hits `parse_map_value`'s `panic!("")` on a
non-`Nested` node; empty brackets ("a[]=1") hit the `panic!("")` in the
bracket branch of `Parser::parse`. -/
theorem c3_malformed_input_panics :
    deserializerNew (strBytes "a") = .panicked "None found here" ∧
    deserializerNew (strBytes "=x") = .panicked "" ∧
    deserializerNew (strBytes "]") = .panicked "" ∧
    deserializerNew (strBytes "a=1&a[b]=2") = .panicked "" ∧
    deserializerNew (strBytes "a[]=1") = .panicked "" :=
  ⟨rfl, rfl, rfl, rfl, rfl⟩

/-- C4: the claim that "a[]=1&a[]=2" and "a[0]=1&a[1]=2" both decode to a
two-element sequence is contradicted by the code: the first input panics
(empty brackets reach `panic!("")`), and the second stops at the stubbed
`parse_int_key` (digits are routed to `parse_seq_value`, which rejects the
still-peeked digit), the error is swallowed, and the result binds "a" to an
empty `Nested` node — which sequence access coerces to the empty sequence,
not to ["1", "2"]. -/
theorem c4_sequence_inputs_fail :
    deserializerNew (strBytes "a[]=1&a[]=2") = .panicked "" ∧
    deserializerNew (strBytes "a[0]=1&a[1]=2") = .ok [("a", .nested [])] ∧
    levelDeserializeSeq (.nested []) = .ok [] :=
  ⟨rfl, rfl, rfl⟩

/-- C5: the claim that exceeding the maximum bracket-nesting depth (default
20) fails with a DepthExceeded error is contradicted by the code: a key with
21 bracketed segments (nesting depth 22) decodes successfully to the full
deep chain, and setting the `array_limit` field to 0 changes nothing — the
field is never read, no depth check exists on any recursive descent. -/
theorem c5_depth_limit_unenforced :
    deserializerNew
        (strBytes "a[b][b][b][b][b][b][b][b][b][b][b][b][b][b][b][b][b][b][b][b][b]=1") =
      .ok [("a", deepChain 21)] ∧
    deserializerNewWithLimit 0
        (strBytes "a[b][b][b][b][b][b][b][b][b][b][b][b][b][b][b][b][b][b][b][b][b]=1") =
      .ok [("a", deepChain 21)] :=
  ⟨rfl, rfl⟩

/-- C7: sequence access on a `Level` node succeeds on a `Sequence` (yielding
its stored elements in order) and on a `Nested` node (yielding the values
with keys discarded), and fails with the type-mismatch error on `Flat` and
`Invalid` nodes. -/
theorem c7_sequence_access_dispatch :
    (∀ elems, levelDeserializeSeq (.sequence elems) = .ok elems) ∧
    (∀ entries, levelDeserializeSeq (.nested entries) = .ok (entries.map Prod.snd)) ∧
    (∀ value, levelDeserializeSeq (.flat value) =
      .err "value does not appear to be a sequence") ∧
    (∀ reason, levelDeserializeSeq (.invalid reason) =
      .err "value does not appear to be a sequence") :=
  ⟨fun _ => rfl, fun _ => rfl, fun _ => rfl, fun _ => rfl⟩

/-- C8, counterexample: the claim that requesting the document root as a
sequence fails with a TypeMismatch error is contradicted by the code:
`Deserializer::deserialize_seq` hands the root's entries to the visitor as a
sequence of (key, value) pairs, so decoding "a=1" into a pair-sequence
target succeeds. -/
theorem c8_root_seq_access_succeeds :
    decodeRootAsPairs (strBytes "a=1") = .ok [("a", "1")] := rfl

/-- C8 (amended): requesting the document root as a sequence does not fail:
the driver offers the root's (key, value) entries as sequence elements.
Requesting the root as a scalar leads the driver (whose catch-all
`deserialize` forwards to map access) to offer `visit_map`, which a
scalar-expecting external visitor rejects with an invalid-type error; map
and struct requests are the directly supported top-level accesses. -/
theorem c8_root_access_amended :
    (∀ entries, rootDeserializeSeq entries = .vseq entries) ∧
    (∀ entries, rootDeserialize entries = .vmap entries ∧
      rootDeserializeMap entries = .vmap entries) ∧
    (∀ entries, natVisitorAtRoot (rootDeserialize entries) =
      .err "invalid type: map, expected an integer") ∧
    decodeRootAsNat (strBytes "a=1") = .err "invalid type: map, expected an integer" :=
  ⟨fun _ => rfl, fun _ => ⟨rfl, rfl⟩, fun _ => rfl, rfl⟩

/-- C9, counterexample: the claim that a percent-encoded "%26" inside a value
does not terminate the pair is contradicted by the code: the whole input is
percent-decoded before parsing, so "a=x%26b=y" becomes "a=x&b=y" and parses
as two pairs; key "a" holds "x", not "x&b=y". -/
theorem c9_escaped_separator_splits_pair :
    percentDecode (strBytes "a=x%26b=y") = strBytes "a=x&b=y" ∧
    deserializerNew (strBytes "a=x%26b=y") =
      .ok [("a", .flat "x"), ("b", .flat "y")] ∧
    ("x" : String) ≠ "x&b=y" :=
  ⟨rfl, rfl, by decide⟩

/-- C6: writing the same terminal map key twice with a flat value replaces
the stored value with the `Invalid` sentinel instead of erroring at parse
time ("a=1&a=2" parses successfully to exactly that sentinel, first
conjunct; the general occupied-entry rule is the second conjunct, stated
from the scan state in which the key has been read and `=` pushed back), and
any later read of the key through the deserialization driver — scalar, map
or sequence access — fails, so neither of the two values is chosen (the
code's only error kinds are custom messages; the message produced by reading
an `Invalid` node is the deferred duplicate-key failure). -/
theorem c6_duplicate_key_deferred :
    deserializerNew (strBytes "a=1&a=2") =
      .ok [("a", .invalid "Multiple values for one key")] ∧
    (∀ fuel key m inner lim value,
      (mapLookup key m).isSome = true →
      stringFromUtf8 (inner.takeWhile (fun c => c ≠ 38)) = some value →
      parseMapValue (fuel + 1) key (.nested m) ⟨inner, [61], some 61, lim⟩ =
        (.ok (true, ⟨inner.drop ((inner.takeWhile (fun c => c ≠ 38)).length + 1),
          [], some 61, lim⟩),
         .nested (mapInsert key (.invalid "Multiple values for one key") m))) ∧
    (∀ reason, levelDeserialize (.invalid reason) = .err "cannot deserialize value" ∧
      levelDeserializeMap (.invalid reason) = .err "value does not appear to be a map" ∧
      levelDeserializeSeq (.invalid reason) =
        .err "value does not appear to be a sequence") := by
  refine ⟨rfl, ?_, fun reason => ⟨rfl, rfl, rfl⟩⟩
  intro fuel key m inner lim value hocc hval
  obtain ⟨v, hv⟩ := Option.isSome_iff_exists.mp hocc
  simp only [parseMapValue, parseCall, Parser.peek, List.isEmpty_cons, Bool.false_eq_true,
    if_false, if_pos rfl]
  simp only [hval, hv]
  simp

/-- C6 witness: the occupied-entry rule of `c6_duplicate_key_deferred` at the
concrete state reached while parsing the second pair of "a=1&a=2". -/
theorem c6_duplicate_key_deferred_witness :
    parseMapValue 1 "a" (.nested [("a", .flat "1")]) ⟨strBytes "2", [61], some 61, 20⟩ =
      (.ok (true, ⟨[], [], some 61, 20⟩),
       .nested [("a", .invalid "Multiple values for one key")]) :=
  c6_duplicate_key_deferred.2.1 0 "a" [("a", .flat "1")] (strBytes "2") 20 "2"
    (by decide) (by rfl)

/-- C9 (amended): value scanning operates on the already percent-decoded
byte stream: from the state in which a key has been read and `=` pushed
back, the stored value is exactly the maximal `&`-free prefix of the
remaining decoded stream, and parsing resumes immediately after that `&`
byte (first conjunct); since "%26" percent-decodes to the `&` byte before
parsing starts (second conjunct), a percent-encoded separator inside a value
also terminates the pair and starts a new key. -/
theorem c9_value_scanning_amended :
    (∀ fuel key m inner lim value,
      mapLookup key m = none →
      stringFromUtf8 (inner.takeWhile (fun c => c ≠ 38)) = some value →
      parseMapValue (fuel + 1) key (.nested m) ⟨inner, [61], some 61, lim⟩ =
        (.ok (true, ⟨inner.drop ((inner.takeWhile (fun c => c ≠ 38)).length + 1),
          [], some 61, lim⟩),
         .nested (mapInsert key (.flat value) m))) ∧
    percentDecode (strBytes "%26") = [38] := by
  refine ⟨?_, rfl⟩
  intro fuel key m inner lim value hvac hval
  simp only [parseMapValue, parseCall, Parser.peek, List.isEmpty_cons, Bool.false_eq_true,
    if_false, if_pos rfl]
  simp only [hval, hvac]
  simp

/-- C9 witness: the scanning rule of `c9_value_scanning_amended` at the
concrete state reached for the pair "a=x&b=y" (the decoded form of
"a=x%26b=y"): the value stops at the decoded separator and parsing resumes
at "b=y". -/
theorem c9_value_scanning_amended_witness :
    parseMapValue 1 "a" (.nested []) ⟨strBytes "x&b=y", [61], some 61, 20⟩ =
      (.ok (true, ⟨strBytes "b=y", [], some 61, 20⟩), .nested [("a", .flat "x")]) :=
  c9_value_scanning_amended.1 0 "a" [] (strBytes "x&b=y") 20 "x" (by rfl) (by rfl)

theorem seqFreeEntries_mapInsert (k : String) (v : Level) (m : List (String × Level))
    (h1 : seqFreeEntries m = true) (h2 : seqFree v = true) :
    seqFreeEntries (mapInsert k v m) = true := by
  induction m with
  | nil => simp [mapInsert, seqFreeEntries, h2]
  | cons hd tl ih =>
    obtain ⟨k1, v1⟩ := hd
    simp only [seqFreeEntries, Bool.and_eq_true] at h1
    simp only [mapInsert]
    split
    · simp [seqFreeEntries, h2, h1.2]
    · simp [seqFreeEntries, h1.1, ih h1.2]

theorem seqFree_of_mapLookup (k : String) (m : List (String × Level)) (v : Level)
    (h1 : seqFreeEntries m = true) (hv : mapLookup k m = some v) : seqFree v = true := by
  induction m with
  | nil => simp [mapLookup] at hv
  | cons hd tl ih =>
    obtain ⟨k1, v1⟩ := hd
    simp only [seqFreeEntries, Bool.and_eq_true] at h1
    simp only [mapLookup] at hv
    split at hv
    · cases hv; exact h1.1
    · exact ih h1.2 hv

theorem seqFree_lookup_getD (k : String) (m : List (String × Level))
    (h1 : seqFreeEntries m = true) :
    seqFree ((mapLookup k m).getD (.nested [])) = true := by
  cases h : mapLookup k m with
  | none => simp [seqFree, seqFreeEntries]
  | some v => simpa using seqFree_of_mapLookup k m v h1 h

theorem parseSeqValue_seqFree (node : Level) (p : Parser) (h : seqFree node = true) :
    seqFree (parseSeqValue node p).2 = true := by
  cases node with
  | sequence elems => simp [seqFree] at h
  | nested m => simp only [parseSeqValue]; repeat' split
                all_goals exact h
  | flat v => simp only [parseSeqValue]; repeat' split
              all_goals exact h
  | invalid r => simp only [parseSeqValue]; repeat' split
                 all_goals exact h

theorem seqFree_of_parseSeqValue_eq (node node1 : Level) (p : Parser) (res : PRes Parser)
    (heq : parseSeqValue node p = (res, node1)) (h : seqFree node = true) :
    seqFree node1 = true := by
  have hh := parseSeqValue_seqFree node p h
  rw [heq] at hh
  exact hh

theorem seqFree_of_parseCall_eq (n : Nat)
    (IH : ∀ c, seqFree c.node = true → seqFree (parseCall n c).2 = true)
    (sub sub1 : Level) (p : Parser) (res : PRes (Bool × Parser))
    (heq : parseCall n (.parse sub p) = (res, sub1))
    (h : seqFree sub = true) : seqFree sub1 = true := by
  have hh := IH (.parse sub p) h
  rw [heq] at hh
  exact hh

/-- The parser never creates a `Sequence` node: every branch of
`Parser::parse` / `parse_map_value` either keeps the node, recurses with a
`Sequence`-free subnode, or inserts a `Flat`/`Invalid`/`Nested` value
(`parse_seq_value` can only append to a node that is already a
`Sequence`). -/
theorem parseCall_seqFree (fuel : Nat) : ∀ (c : Call), seqFree c.node = true →
    seqFree (parseCall fuel c).2 = true := by
  induction fuel with
  | zero => intro c h; cases c <;> exact h
  | succ n ih =>
    intro c h
    cases c with
    | parse node p =>
      simp only [parseCall]
      repeat' split
      all_goals first
        | exact h
        | exact ih _ h
        | (rename_i hres
           exact seqFree_of_parseSeqValue_eq _ _ _ _ hres h)
    | mapValue key node p =>
      simp only [parseCall]
      repeat' split
      all_goals first
        | exact h
        | exact seqFreeEntries_mapInsert _ _ _ h rfl
        | (rename_i hres
           exact seqFreeEntries_mapInsert _ _ _ h
             (seqFree_of_parseCall_eq n ih _ _ _ _ hres (seqFree_lookup_getD _ _ h)))

theorem newLoop_seqFree (fuel : Nat) : ∀ (node : Level) (p : Parser) (lvl : Level),
    seqFree node = true → newLoop fuel node p = .ok lvl → seqFree lvl = true := by
  induction fuel with
  | zero => intro node p lvl h hloop; exact PRes.noConfusion hloop
  | succ n ih =>
    intro node p lvl h hloop
    simp only [newLoop] at hloop
    rcases hres : parseGo (2 * p.inner.length + 2) node p with ⟨res, node1⟩
    have hres2 : parseCall (2 * p.inner.length + 2) (.parse node p) = (res, node1) := hres
    rw [hres] at hloop
    have hnode1 : seqFree node1 = true := by
      have hh := parseCall_seqFree (2 * p.inner.length + 2) (.parse node p) h
      rw [hres2] at hh
      exact hh
    cases res with
    | panicked m => exact PRes.noConfusion hloop
    | err m => cases hloop; exact hnode1
    | ok bp =>
      obtain ⟨b, p1⟩ := bp
      cases b with
      | false => cases hloop; exact hnode1
      | true => exact ih node1 p1 lvl hnode1 hloop

/-- C10: for every input byte sequence on which parsing completes and
returns a tree, no node of the resulting `Level` tree is a `Sequence`: the
only code path that appends to a sequence (`parse_seq_value`) requires the
target node to already be a `Sequence`, while the parser only ever creates
`Nested`, `Flat` and `Invalid` nodes, so the parse result is always
`Sequence`-free. -/
theorem c10_no_sequence_in_parse_result (input : List Nat) (m : List (String × Level))
    (h : deserializerNew input = .ok m) : seqFreeEntries m = true := by
  simp only [deserializerNew] at h
  split at h
  · exact PRes.noConfusion h
  · exact PRes.noConfusion h
  · rename_i m1 hloop
    cases h
    exact newLoop_seqFree ((percentDecode input).length + 2)
      (.nested []) (Parser.new (percentDecode input)) (.nested m) rfl hloop
  · exact PRes.noConfusion h

/-- C10 witness: the invariant applied to the concrete parse of "a=1". -/
theorem c10_no_sequence_in_parse_result_witness :
    seqFreeEntries [("a", .flat "1")] = true :=
  c10_no_sequence_in_parse_result (strBytes "a=1") [("a", .flat "1")] (by rfl)
